import Mathlib

/-!
Verification of the MorphIO Neurolucida ASC lexer.

The definitions below are a shallow embedding of the C++ sources:
the token enumeration, the lexertl rule table built by `build_lexer`,
and the `NeurolucidaLexer` cursor (`start_parse`, `skip_whitespace`,
`consume`, `expect`, `consume_until_balanced_paren`), together with the
exception-hierarchy registration of the python binding module.
-/

namespace MorphioAsc

/-- Token kinds of the ASC lexer, mirroring the C++ `enum class Token`.
`EOF_` has value 0, which is also the id lexertl reports when an
iterator is at / dereferences the end-of-input position. -/
inductive Token where
  | EOF_
  | WS
  | NEWLINE
  | COMMENT
  | LPAREN
  | RPAREN
  | LSPINE
  | RSPINE
  | COMMA
  | PIPE
  | WORD
  | STRING
  | NUMBER
  | AXON
  | APICAL
  | DENDRITE
  | CELLBODY
  | COLOR
  | FONT
  | MARKER
  | RGB
  | GENERATED
  | HIGH
  | INCOMPLETE
  | LOW
  | NORMAL
  | MIDPOINT
  | ORIGIN
deriving DecidableEq, Repr

/-- Mirrors the C++ `to_string(Token)` switch. Every declared enumerator is
covered, so the `default: return "Unknown"` branch is unreachable. -/
def to_string : Token → String
  | .EOF_ => "EOF_"
  | .WS => "WS"
  | .NEWLINE => "NEWLINE"
  | .COMMENT => "COMMENT"
  | .LPAREN => "LPAREN"
  | .RPAREN => "RPAREN"
  | .LSPINE => "LSPINE"
  | .RSPINE => "RSPINE"
  | .COMMA => "COMMA"
  | .PIPE => "PIPE"
  | .WORD => "WORD"
  | .STRING => "STRING"
  | .NUMBER => "NUMBER"
  | .AXON => "AXON"
  | .APICAL => "APICAL"
  | .DENDRITE => "DENDRITE"
  | .CELLBODY => "CELLBODY"
  | .COLOR => "COLOR"
  | .FONT => "FONT"
  | .MARKER => "MARKER"
  | .RGB => "RGB"
  | .GENERATED => "GENERATED"
  | .HIGH => "HIGH"
  | .INCOMPLETE => "INCOMPLETE"
  | .LOW => "LOW"
  | .NORMAL => "NORMAL"
  | .MIDPOINT => "MIDPOINT"
  | .ORIGIN => "ORIGIN"

/-- The whitespace character class `[ \t\r]` of the lexer rules. -/
def isWsChar (c : Char) : Bool := c == ' ' || c == '\t' || c == '\r'

/-- The digit character class `[0-9]`. -/
def isDigitChar (c : Char) : Bool := '0' ≤ c && c ≤ '9'

/-- The alphabetic character class `[a-zA-Z]`. -/
def isAlphaChar (c : Char) : Bool :=
  ('a' ≤ c && c ≤ 'z') || ('A' ≤ c && c ≤ 'Z')

/-- The alphanumeric character class `[0-9a-zA-Z]`. -/
def isAlnumChar (c : Char) : Bool := isDigitChar c || isAlphaChar c

/-- Length of the longest run of characters satisfying `p` at the head of
the input; this is how a greedy `X*` / `X+` regex piece matches. -/
def starCount (p : Char → Bool) : List Char → Nat
  | [] => 0
  | c :: r => if p c then starCount p r + 1 else 0

/-- `litHere pat l` holds when the literal character sequence `pat` occurs
at the head of `l`. -/
def litHere : List Char → List Char → Bool
  | [], _ => true
  | _ :: _, [] => false
  | p :: ps, c :: cs => p == c && litHere ps cs

/-- Longest match of a literal-word rule (for example `Color`). -/
def matchLit (pat : List Char) (l : List Char) : Option Nat :=
  if litHere pat l then some pat.length else none

/-- Longest match of a marker rule `Name[0-9]*`: the fixed name followed by
as many digits as possible. -/
def matchMarker (base : List Char) (l : List Char) : Option Nat :=
  if litHere base l then
    some (base.length + starCount isDigitChar (l.drop base.length))
  else none

/-- Longest match of the rule `\n` (NEWLINE). -/
def matchNewline : List Char → Option Nat
  | '\n' :: _ => some 1
  | _ => none

/-- Longest match of the rule `[ \t\r]+` (WS). -/
def matchWs (l : List Char) : Option Nat :=
  let n := starCount isWsChar l
  if n = 0 then none else some n

/-- Longest match of the rule `;[^\n]*` (COMMENT). -/
def matchComment : List Char → Option Nat
  | ';' :: r => some (1 + starCount (fun c => !(c == '\n')) r)
  | _ => none

/-- Longest match of the rule `<[ \t\r]*\(` (LSPINE). -/
def matchLspine : List Char → Option Nat
  | '<' :: r =>
    let n := starCount isWsChar r
    match r.drop n with
    | '(' :: _ => some (2 + n)
    | _ => none
  | _ => none

/-- Longest match of a rule of shape `[xX]tail` — a word whose first letter
is accepted in either case and whose remaining letters are literal.
This is the shape of the `[Aa]xon`, `[Aa]pical`, `[Dd]endrite` rules. -/
def matchCaseHead (lo hi : Char) (tail : List Char) : List Char → Option Nat
  | c :: r =>
    if (c == lo || c == hi) && litHere tail r then some (1 + tail.length)
    else none
  | [] => none

/-- Does `[Bb]ody` occur at the head of the input? Helper for the
`[Cc]ell ?[Bb]ody` rule. -/
def bodyHere : List Char → Bool
  | b :: r => (b == 'B' || b == 'b') && litHere ['o', 'd', 'y'] r
  | [] => false

/-- Longest match of the rule `[Cc]ell ?[Bb]ody` (CELLBODY): first letters
of `cell` and `body` case-insensitive, with exactly one optional internal
space. The space alternative is longer, so longest match prefers it. -/
def matchCellBody : List Char → Option Nat
  | c :: r =>
    if (c == 'C' || c == 'c') && litHere ['e', 'l', 'l'] r then
      let r2 := r.drop 3
      match r2 with
      | ' ' :: r3 =>
        if bodyHere r3 then some 9 else if bodyHere r2 then some 8 else none
      | _ => if bodyHere r2 then some 8 else none
    else none
  | [] => none

/-- Longest match of the rule `\"[^"]*\"` (STRING). -/
def matchQuoted : List Char → Option Nat
  | '"' :: r =>
    let n := starCount (fun c => !(c == '"')) r
    match r.drop n with
    | '"' :: _ => some (n + 2)
    | _ => none
  | _ => none

/-- Longest match of the rule `[+-]?[0-9]+(\.[0-9]+)?([eE][+-]?[0-9]+)?`
(NUMBER). Each optional group is taken greedily and only when it can be
completed, which yields the longest overall match. -/
def matchNumber (l : List Char) : Option Nat :=
  let sl : Nat × List Char :=
    match l with
    | c :: r => if c == '+' || c == '-' then (1, r) else (0, l)
    | [] => (0, l)
  let d1 := starCount isDigitChar sl.2
  if d1 = 0 then none
  else
    let l2 := sl.2.drop d1
    let fl : Nat × List Char :=
      match l2 with
      | '.' :: r =>
        let d2 := starCount isDigitChar r
        if d2 = 0 then (0, l2) else (1 + d2, r.drop d2)
      | _ => (0, l2)
    let el : Nat :=
      match fl.2 with
      | c :: r =>
        if c == 'e' || c == 'E' then
          let sr : Nat × List Char :=
            match r with
            | c2 :: rr => if c2 == '+' || c2 == '-' then (1, rr) else (0, r)
            | [] => (0, r)
          let d3 := starCount isDigitChar sr.2
          if d3 = 0 then 0 else 1 + sr.1 + d3
        else 0
      | [] => 0
    some (sl.1 + d1 + fl.1 + el)

/-- Longest match of the catch-all word rule `[a-zA-Z][0-9a-zA-Z]+`
(WORD): one alphabetic character followed by at least one alphanumeric
character, so the rule needs at least two characters. -/
def matchWord : List Char → Option Nat
  | c :: r =>
    if isAlphaChar c then
      let n := starCount isAlnumChar r
      if n = 0 then none else some (1 + n)
    else none
  | [] => none

/-- A compiled rule table: each rule is a longest-match function paired
with the token id it produces, kept in declaration order. -/
def RuleTable : Type := List ((List Char → Option Nat) × Token)

/-- The rule table pushed by `build_lexer`, with the rules in the exact
order of the `rules_.push` calls (including the duplicate `Flower[0-9]*`
marker rule). -/
def compiled_rules : RuleTable :=
  [ (matchNewline, .NEWLINE),
    (matchWs, .WS),
    (matchComment, .COMMENT),
    (matchLit ['('], .LPAREN),
    (matchLit [')'], .RPAREN),
    (matchLspine, .LSPINE),
    (matchLit [')', '>'], .RSPINE),
    (matchLit [','], .COMMA),
    (matchLit ['|'], .PIPE),
    (matchLit "Color".data, .COLOR),
    (matchLit "Font".data, .FONT),
    (matchCaseHead 'A' 'a' "xon".data, .AXON),
    (matchCaseHead 'A' 'a' "pical".data, .APICAL),
    (matchCaseHead 'D' 'd' "endrite".data, .DENDRITE),
    (matchCellBody, .CELLBODY),
    (matchMarker "Dot".data, .MARKER),
    (matchMarker "Plus".data, .MARKER),
    (matchMarker "Cross".data, .MARKER),
    (matchMarker "Splat".data, .MARKER),
    (matchMarker "Flower".data, .MARKER),
    (matchMarker "Circle".data, .MARKER),
    (matchMarker "Flower".data, .MARKER),
    (matchMarker "TriStar".data, .MARKER),
    (matchMarker "OpenStar".data, .MARKER),
    (matchMarker "Asterisk".data, .MARKER),
    (matchMarker "SnowFlake".data, .MARKER),
    (matchMarker "OpenCircle".data, .MARKER),
    (matchMarker "ShadedStar".data, .MARKER),
    (matchMarker "FilledStar".data, .MARKER),
    (matchMarker "TexacoStar".data, .MARKER),
    (matchMarker "MoneyGreen".data, .MARKER),
    (matchMarker "DarkYellow".data, .MARKER),
    (matchMarker "OpenSquare".data, .MARKER),
    (matchMarker "OpenDiamond".data, .MARKER),
    (matchMarker "CircleArrow".data, .MARKER),
    (matchMarker "CircleCross".data, .MARKER),
    (matchMarker "OpenQuadStar".data, .MARKER),
    (matchMarker "DoubleCircle".data, .MARKER),
    (matchMarker "FilledSquare".data, .MARKER),
    (matchMarker "MalteseCross".data, .MARKER),
    (matchMarker "FilledCircle".data, .MARKER),
    (matchMarker "FilledDiamond".data, .MARKER),
    (matchMarker "FilledQuadStar".data, .MARKER),
    (matchMarker "OpenUpTriangle".data, .MARKER),
    (matchMarker "FilledUpTriangle".data, .MARKER),
    (matchMarker "OpenDownTriangle".data, .MARKER),
    (matchMarker "FilledDownTriangle".data, .MARKER),
    (matchLit "Generated".data, .GENERATED),
    (matchLit "High".data, .HIGH),
    (matchLit "Incomplete".data, .INCOMPLETE),
    (matchLit "Low".data, .LOW),
    (matchLit "Normal".data, .NORMAL),
    (matchLit "Midpoint".data, .MIDPOINT),
    (matchLit "Origin".data, .ORIGIN),
    (matchQuoted, .STRING),
    (matchNumber, .NUMBER),
    (matchWord, .WORD) ]

/-- One lexer lookup: run every rule at the head of the input, keep the
longest match, and break ties in favour of the rule declared first (the
flex-style convention lexertl compiles into its state machine). -/
def scanBest (rules : RuleTable) (l : List Char) : Option (Nat × Token) :=
  rules.foldl
    (fun best pr =>
      match pr.1 l with
      | none => best
      | some n =>
        match best with
        | none => some (n, pr.2)
        | some b => if b.1 < n then some (n, pr.2) else some b)
    none

/-- A produced token: its kind and its lexeme. -/
structure RawTok where
  id : Token
  str : String
deriving DecidableEq, Repr

/-- Repeated lexer lookups over the whole input, producing the raw token
sequence. `none` signals a position where no rule matches. The fuel
argument bounds the recursion; every successful lookup consumes at least
one character, so fuel equal to the input length is always sufficient. -/
def tokenizeFrom (rules : RuleTable) : Nat → List Char → Option (List RawTok)
  | _, [] => some []
  | 0, _ :: _ => none
  | fuel + 1, c :: rest =>
    match scanBest rules (c :: rest) with
    | none => none
    | some nt =>
      if nt.1 = 0 then none
      else
        match tokenizeFrom rules fuel ((c :: rest).drop nt.1) with
        | none => none
        | some toks => some (⟨nt.2, String.mk ((c :: rest).take nt.1)⟩ :: toks)

/-- Tokenize a whole input with the given rule table. -/
def tokenizeWith (rules : RuleTable) (l : List Char) : Option (List RawTok) :=
  tokenizeFrom rules l.length l

/-- The memoized `build_lexer`: the C++ function holds a `static` state
machine, returns it unchanged when it is already non-empty, and builds it
exactly once otherwise. The process-wide static is passed explicitly: the
argument is the static's value before the call ([] = not yet built) and
the second component of the result is its value after the call. -/
def build_lexer (sm : RuleTable) : RuleTable × RuleTable :=
  if !sm.isEmpty then (sm, sm) else (compiled_rules, compiled_rules)

/-- A full tokenization run as the process executes it: fetch the table
through `build_lexer` (building it on first use), tokenize with it, and
return the tokens together with the static table state after the run. -/
def runTokenize (sm : RuleTable) (input : List Char) :
    Option (List RawTok) × RuleTable :=
  let b := build_lexer sm
  (tokenizeWith b.1 input, b.2)

/-- The typed errors the lexer can throw: `ERROR_EOF_REACHED` (from
`consume`), `ERROR_EOF_UNBALANCED_PARENS` (from
`consume_until_balanced_paren`) and `ERROR_UNEXPECTED_TOKEN` (from
`expect`, carrying the line, the expected kind name, the actual lexeme
and the caller context). All are `RawDataError`s. -/
inductive Err where
  | eofReached (line : Nat)
  | eofUnbalanced (line : Nat)
  | unexpectedToken (line : Nat) (expected : String) (got : String) (ctx : String)
deriving DecidableEq, Repr

/-- Is the diagnostic one of the two end-of-input / unbalanced-parens
diagnostics? -/
def isEofErr : Err → Bool
  | .eofReached _ => true
  | .eofUnbalanced _ => true
  | .unexpectedToken _ _ _ _ => false

/-- The `NeurolucidaLexer` cursor state. The two lexertl iterators
`current_` and `next_` are each represented by the list of raw tokens
from their position to the end of input; `[]` is the default-constructed
end iterator. -/
structure LexState where
  cur : List RawTok
  curLine : Nat
  nxt : List RawTok
  nxtLine : Nat
deriving DecidableEq, Repr

/-- Id of the token `current_` points at; dereferencing the end iterator
yields a default `match_results` whose id is 0, i.e. `EOF_`. -/
def currentId (s : LexState) : Token :=
  match s.cur with
  | [] => Token.EOF_
  | tk :: _ => tk.id

/-- Lexeme of the token `current_` points at (empty at end of input). -/
def currentStr (s : LexState) : String :=
  match s.cur with
  | [] => ""
  | tk :: _ => tk.str

/-- Mirrors `NeurolucidaLexer::ended`: the current iterator equals the
default-constructed end iterator. -/
def ended (s : LexState) : Bool := s.cur.isEmpty

/-- Is a token kind one of the trivia kinds discarded by the skip pass? -/
def isTrivia (t : Token) : Bool :=
  t == Token.WS || t == Token.NEWLINE || t == Token.COMMENT

/-- Mirrors `NeurolucidaLexer::skip_whitespace`: advance the iterator
past WS, NEWLINE and COMMENT tokens, returning the number of NEWLINE
tokens consumed together with the advanced iterator. -/
def skip_whitespace : List RawTok → Nat × List RawTok
  | [] => (0, [])
  | tk :: rest =>
    if tk.id = Token.NEWLINE then
      let p := skip_whitespace rest
      (p.1 + 1, p.2)
    else if tk.id = Token.WS ∨ tk.id = Token.COMMENT then
      skip_whitespace rest
    else (0, tk :: rest)

/-- Mirrors the zero-argument `NeurolucidaLexer::consume`: throw
`ERROR_EOF_REACHED` when already ended; otherwise copy `next_` into
`current_` (and its line number), then, when `next_` is not the end
iterator, advance it once and skip trivia, accumulating skipped newlines
into the lookahead line counter. -/
def consume (s : LexState) : Except Err LexState :=
  if ended s then .error (.eofReached s.curLine)
  else
    match s.nxt with
    | [] => .ok ⟨s.nxt, s.nxtLine, s.nxt, s.nxtLine⟩
    | _ :: rest =>
      let p := skip_whitespace rest
      .ok ⟨s.nxt, s.nxtLine, p.2, s.nxtLine + p.1⟩

/-- Mirrors `NeurolucidaLexer::expect`: throw `ERROR_UNEXPECTED_TOKEN`
(current line, expected kind name, actual lexeme, caller context) when
the current token's id differs from the expected kind. The method is
`const`; the state it returns on success is the state it was given. -/
def expect (t : Token) (msg : String) (s : LexState) : Except Err LexState :=
  if currentId s ≠ t then
    .error (.unexpectedToken s.curLine (to_string t) (currentStr s) msg)
  else .ok s

/-- Mirrors the one-argument `NeurolucidaLexer::consume(Token, msg)`:
`expect` with the given context (or `"Consume"` when the context is
empty), then the zero-argument `consume`. -/
def consumeTok (t : Token) (msg : String) (s : LexState) : Except Err LexState :=
  match (if !msg.isEmpty then expect t msg s else expect t "Consume" s) with
  | .error e => .error e
  | .ok s1 => consume s1

/-- Mirrors `NeurolucidaLexer::start_parse`: both iterators start at the
head of the raw token stream, `skip_whitespace` is applied to the
`current_` iterator (its newline count is added to both line counters,
which start at 1), and then `consume` runs once. -/
def start_parse (raw : List RawTok) : Except Err LexState :=
  let p := skip_whitespace raw
  consume ⟨p.2, 1 + p.1, raw, 1 + p.1⟩

/-- The `switch` of the `consume_until_balanced_paren` loop: RPAREN
decrements the depth counter, LPAREN increments it, everything else
leaves it unchanged. -/
def stepCount (c : Nat) (t : Token) : Nat :=
  if t = Token.RPAREN then c - 1 else if t = Token.LPAREN then c + 1 else c

/-- Does the list start with a non-trivia token (or is it empty)? Used to
state that the lookahead recomputed by `consume` never rests on trivia. -/
def headNonTrivia : List RawTok → Bool
  | [] => true
  | tk :: _ => !isTrivia tk.id

/-- Termination bound for the loop below: skipping trivia never
lengthens the iterator's remaining stream. -/
def skip_whitespace_len_le : ∀ l : List RawTok,
    (skip_whitespace l).2.length ≤ l.length
  | [] => by simp [skip_whitespace]
  | tk :: rest => by
    unfold skip_whitespace
    split
    · simpa using Nat.le_succ_of_le (skip_whitespace_len_le rest)
    · split
      · simpa using Nat.le_succ_of_le (skip_whitespace_len_le rest)
      · simp

/-- Termination bound for the loop below: a successful `consume` that
lands on a real token strictly shortens the lookahead iterator's
remaining stream. -/
def consume_nxt_lt (s s' : LexState) (h : consume s = .ok s')
    (h2 : s'.cur.isEmpty = false) : s'.nxt.length < s.nxt.length := by
  unfold consume at h
  by_cases hc : ended s
  · simp [hc] at h
  · simp [hc] at h
    match hn : s.nxt with
    | [] =>
      rw [hn] at h
      simp at h
      rw [← h] at h2
      simp [hn] at h2
    | a :: rest =>
      rw [hn] at h
      simp at h
      rw [← h]
      simp
      exact Nat.lt_succ_of_le (skip_whitespace_len_le rest)

/-- Mirrors the `while (opening_count != 0)` loop of
`consume_until_balanced_paren`: consume a token, adjust the depth
counter on LPAREN / RPAREN, and throw `ERROR_EOF_UNBALANCED_PARENS` when
the consumed position is the end iterator. The loop terminates because a
successful `consume` that does not land on the end iterator strictly
shortens the lookahead iterator's remaining stream. -/
def cubpGo (c : Nat) (s : LexState) : Except Err LexState :=
  if c = 0 then .ok s
  else
    match h : consume s with
    | .error e => .error e
    | .ok s' =>
      if h2 : s'.cur.isEmpty then .error (.eofUnbalanced s'.curLine)
      else cubpGo (stepCount c (currentId s')) s'
termination_by s.nxt.length
decreasing_by
  exact consume_nxt_lt s s' h (by simpa using h2)

/-- Mirrors `NeurolucidaLexer::consume_until_balanced_paren`: run the
depth-tracking loop starting at depth 1 and finish with
`consume(Token::RPAREN, "consume_until_balanced_paren should end in
RPAREN")`. -/
def consume_until_balanced_paren (s : LexState) : Except Err LexState :=
  match cubpGo 1 s with
  | .error e => .error e
  | .ok sE =>
    consumeTok Token.RPAREN "consume_until_balanced_paren should end in RPAREN" sE

/-- Is an `Except` outcome a success? -/
def isOkE (r : Except Err LexState) : Bool :=
  match r with
  | .ok _ => true
  | .error _ => false

/-- Is an `Except` outcome a failure? -/
def isErrE (r : Except Err LexState) : Bool :=
  match r with
  | .ok _ => false
  | .error _ => true

/-- The exception registration of the python binding module
(`PYBIND11_MODULE` in `morphio.cpp`): each exposed exception with the
base it is registered under (`none` for the hierarchy root). -/
def registered_exceptions : List (String × Option String) :=
  [ ("MorphioError", none),
    ("RawDataError", some "MorphioError"),
    ("UnknownFileType", some "MorphioError"),
    ("SomaError", some "MorphioError"),
    ("IDSequenceError", some "RawDataError"),
    ("MultipleTrees", some "RawDataError"),
    ("MissingParentError", some "RawDataError"),
    ("SectionBuilderError", some "RawDataError") ]

/-- The declared base of a registered exception. -/
def parentOf (n : String) : Option String :=
  match registered_exceptions.find? (fun p => p.1 == n) with
  | some p => p.2
  | none => none

/-- Is `b` a proper ancestor of `a` in the registered hierarchy,
chasing at most `fuel` parent links? -/
def ancestorWithin : Nat → String → String → Bool
  | 0, _, _ => false
  | fuel + 1, a, b =>
    match parentOf a with
    | none => false
    | some p => p == b || ancestorWithin fuel p b

/-- Is exception `a` a proper subtype of exception `b` as registered? -/
def derivesFrom (a b : String) : Bool :=
  ancestorWithin registered_exceptions.length a b

/-- The skip pass lands exactly on the first non-trivia suffix: its
iterator result is `dropWhile` of the trivia predicate. -/
theorem skip_whitespace_eq_dropWhile (l : List RawTok) :
    (skip_whitespace l).2 = l.dropWhile (fun tk => isTrivia tk.id) := by
  induction l with
  | nil => rfl
  | cons tk rest ih =>
    by_cases h1 : tk.id = Token.NEWLINE
    · simp [skip_whitespace, isTrivia, h1, ih, List.dropWhile_cons]
    · by_cases h2 : tk.id = Token.WS ∨ tk.id = Token.COMMENT
      · rcases h2 with h2 | h2 <;>
          simp [skip_whitespace, isTrivia, h1, h2, ih, List.dropWhile_cons]
      · push_neg at h2
        simp [skip_whitespace, isTrivia, h1, h2.1, h2.2, List.dropWhile_cons]

/-- After dropping trivia, the head of the list (when any) is not a
trivia token. -/
theorem headNonTrivia_dropWhile (l : List RawTok) :
    headNonTrivia (l.dropWhile (fun tk => isTrivia tk.id)) = true := by
  induction l with
  | nil => rfl
  | cons tk rest ih =>
    by_cases h : isTrivia tk.id
    · simpa [List.dropWhile, h] using ih
    · simp [List.dropWhile, h, headNonTrivia]

/-- The only error `consume` can throw is `ERROR_EOF_REACHED` at the
current line, and only when the cursor has ended. -/
theorem consume_error_eof (s : LexState) (e : Err)
    (h : consume s = .error e) :
    ended s = true ∧ e = Err.eofReached s.curLine := by
  unfold consume at h
  by_cases hc : ended s
  · simp [hc] at h
    exact ⟨hc, h.symm⟩
  · simp [hc] at h
    match hn : s.nxt with
    | [] => rw [hn] at h; simp at h
    | a :: rest => rw [hn] at h; simp at h

/-- One unfolding of the `consume_until_balanced_paren` loop body. -/
theorem cubpGo_step_eq (c : Nat) (s : LexState) (hc : c ≠ 0) :
    cubpGo c s =
      match consume s with
      | .error e => .error e
      | .ok s1 =>
        if s1.cur.isEmpty then .error (.eofUnbalanced s1.curLine)
        else cubpGo (stepCount c (currentId s1)) s1 := by
  conv_lhs => rw [cubpGo]
  simp only [if_neg hc]
  rcases hcs : consume s with e | s1 <;> simp [hcs]

/-- The loop is a no-op at depth 0. -/
theorem cubpGo_zero (s : LexState) : cubpGo 0 s = .ok s := by
  rw [cubpGo]
  simp

/-- When the depth update of the loop reaches 0 from a nonzero depth,
the token that produced it is an RPAREN. -/
theorem stepCount_zero (c : Nat) (t : Token) (hc : c ≠ 0)
    (h : stepCount c t = 0) : t = Token.RPAREN := by
  unfold stepCount at h
  by_cases h1 : t = Token.RPAREN
  · exact h1
  · rw [if_neg h1] at h
    by_cases h2 : t = Token.LPAREN
    · rw [if_pos h2] at h
      exact absurd h (Nat.succ_ne_zero c)
    · rw [if_neg h2] at h
      exact absurd h hc

/-- Soundness of the depth-tracking loop, by strong induction on the
length of the lookahead stream: started at a nonzero depth it either
returns with an RPAREN as the current token, or throws one of the two
end-of-input diagnostics. -/
theorem cubpGo_sound : ∀ (n c : Nat) (s : LexState),
    s.nxt.length ≤ n → c ≠ 0 →
    (∀ sE, cubpGo c s = .ok sE → currentId sE = Token.RPAREN) ∧
    (∀ e, cubpGo c s = .error e → isEofErr e = true) := by
  intro n
  induction n with
  | zero =>
    intro c s hn hc
    rw [cubpGo_step_eq c s hc]
    rcases hcs : consume s with e | s1
    · refine ⟨fun sE hE => by simp at hE, fun e2 he2 => ?_⟩
      simp at he2
      rw [← he2, (consume_error_eof s e hcs).2]
      rfl
    · have h1 : s1.cur.isEmpty = true := by
        by_contra hne
        have := consume_nxt_lt s s1 hcs (by simpa using hne)
        omega
      simp [h1, isEofErr]
  | succ n ih =>
    intro c s hn hc
    rw [cubpGo_step_eq c s hc]
    rcases hcs : consume s with e | s1
    · refine ⟨fun sE hE => by simp at hE, fun e2 he2 => ?_⟩
      simp at he2
      rw [← he2, (consume_error_eof s e hcs).2]
      rfl
    · by_cases h1 : s1.cur.isEmpty
      · simp [h1, isEofErr]
      · simp [h1]
        have hlt := consume_nxt_lt s s1 hcs (by simpa using h1)
        by_cases h0 : stepCount c (currentId s1) = 0
        · rw [h0, cubpGo_zero]
          refine ⟨fun sE hE => ?_, fun e2 he2 => by simp at he2⟩
          have : sE = s1 := by simpa using hE.symm
          rw [this]
          exact (stepCount_zero c (currentId s1) hc h0).symm ▸ rfl
        · exact ih (stepCount c (currentId s1)) s1 (by omega) h0

/-- Concrete run of the loop: after the opening LPAREN of the stream
`( )` has been consumed (the LPAREN is the current token), the loop
stops on the matching RPAREN. -/
theorem cubpGo_pair_run :
    cubpGo 1 ⟨[⟨Token.LPAREN, "("⟩, ⟨Token.RPAREN, ")"⟩], 1,
              [⟨Token.RPAREN, ")"⟩], 1⟩ =
      .ok ⟨[⟨Token.RPAREN, ")"⟩], 1, [], 1⟩ := by
  rw [cubpGo_step_eq 1 _ one_ne_zero]
  have hcons : consume ⟨[⟨Token.LPAREN, "("⟩, ⟨Token.RPAREN, ")"⟩], 1,
      [⟨Token.RPAREN, ")"⟩], 1⟩ =
      .ok ⟨[⟨Token.RPAREN, ")"⟩], 1, [], 1⟩ := by
    simp [consume, ended, skip_whitespace]
  rw [hcons]
  simp [currentId, stepCount, cubpGo_zero]

/-- Concrete run of the whole balanced-paren consumer on the stream
`( )` with the LPAREN current: it succeeds and leaves the cursor past
the closing RPAREN, at end of input. -/
theorem cubp_pair_run :
    consume_until_balanced_paren ⟨[⟨Token.LPAREN, "("⟩, ⟨Token.RPAREN, ")"⟩], 1,
        [⟨Token.RPAREN, ")"⟩], 1⟩ =
      .ok ⟨[], 1, [], 1⟩ := by
  unfold consume_until_balanced_paren
  rw [cubpGo_pair_run]
  simp [consumeTok, expect, currentId, currentStr, consume, ended,
    skip_whitespace]

/-- Claim C2: starting at depth 1 after the already-consumed opening
parenthesis, the loop of `consume_until_balanced_paren` increments the
depth on every LPAREN and decrements it on every RPAREN (`stepCount`);
every run either succeeds or throws one of the end-of-input /
unbalanced-parentheses diagnostics; and every successful run exits the
loop with an RPAREN as the current token and returns after consuming
past that RPAREN. -/
theorem C2_consume_until_balanced_paren_spec (s : LexState) :
    ((∃ sF, consume_until_balanced_paren s = .ok sF) ∨
      (∃ e, consume_until_balanced_paren s = .error e ∧ isEofErr e = true)) ∧
    (∀ sF, consume_until_balanced_paren s = .ok sF →
      ∃ sE, cubpGo 1 s = .ok sE ∧ currentId sE = Token.RPAREN ∧
        sE.cur.isEmpty = false ∧ consume sE = .ok sF) ∧
    (∀ c, stepCount c Token.LPAREN = c + 1) ∧
    (∀ c, stepCount c Token.RPAREN = c - 1) := by
  have hs := cubpGo_sound s.nxt.length 1 s le_rfl one_ne_zero
  have hstepL : ∀ c, stepCount c Token.LPAREN = c + 1 := by
    intro c
    simp [stepCount]
  have hstepR : ∀ c, stepCount c Token.RPAREN = c - 1 := by
    intro c
    simp [stepCount]
  rcases hr : cubpGo 1 s with e | sE
  · have he : isEofErr e = true := hs.2 e hr
    have hcu : consume_until_balanced_paren s = .error e := by
      unfold consume_until_balanced_paren
      rw [hr]
    refine ⟨Or.inr ⟨e, hcu, he⟩, fun sF hF => ?_, hstepL, hstepR⟩
    rw [hcu] at hF
    simp at hF
  · have hrp : currentId sE = Token.RPAREN := hs.1 sE hr
    have hne : sE.cur.isEmpty = false := by
      cases hc : sE.cur with
      | nil => simp [currentId, hc] at hrp
      | cons a l => simp [hc]
    obtain ⟨sF0, hcons⟩ : ∃ sF0, consume sE = .ok sF0 := by
      unfold consume
      rw [ended, hne]
      simp only [Bool.false_eq_true, if_false]
      cases sE.nxt with
      | nil => exact ⟨_, rfl⟩
      | cons a l => exact ⟨_, rfl⟩
    have hexp : expect Token.RPAREN
        "consume_until_balanced_paren should end in RPAREN" sE = .ok sE := by
      simp [expect, hrp]
    have hall : consume_until_balanced_paren s = .ok sF0 := by
      unfold consume_until_balanced_paren
      rw [hr]
      unfold consumeTok
      simp only [String.isEmpty]
      rw [if_pos (by decide), hexp]
      exact hcons
    refine ⟨Or.inl ⟨sF0, hall⟩, fun sF hF => ?_, hstepL, hstepR⟩
    have hsame : sF = sF0 := by
      rw [hall] at hF
      simpa using hF.symm
    exact ⟨sE, rfl, hrp, hne, by rw [hcons, hsame]⟩

/-- Claim C2, witness: on the concrete stream `( )` with the opening
LPAREN current, the run succeeds, the loop exits on the RPAREN, and the
function returns past it. -/
theorem C2_consume_until_balanced_paren_witness :
    ∃ sE, cubpGo 1 (⟨[⟨Token.LPAREN, "("⟩, ⟨Token.RPAREN, ")"⟩], 1,
        [⟨Token.RPAREN, ")"⟩], 1⟩ : LexState) = .ok sE ∧
      currentId sE = Token.RPAREN ∧ sE.cur.isEmpty = false ∧
      consume sE = .ok ⟨[], 1, [], 1⟩ :=
  (C2_consume_until_balanced_paren_spec _).2.1 _ cubp_pair_run

/-- Claim C9: whenever the depth-tracking loop exits normally, the token
just consumed is an RPAREN, so the final
`consume(Token::RPAREN, ...)` assertion cannot fail: its `expect`
succeeds without change, and the whole
`consume_until_balanced_paren` reduces to the final `consume`, which
succeeds. -/
theorem C9_final_expect_unreachable (s sE : LexState)
    (h : cubpGo 1 s = .ok sE) :
    currentId sE = Token.RPAREN ∧
    expect Token.RPAREN "consume_until_balanced_paren should end in RPAREN" sE
      = .ok sE ∧
    consume_until_balanced_paren s = consume sE ∧
    (∃ sF, consume_until_balanced_paren s = .ok sF) := by
  have hrp : currentId sE = Token.RPAREN :=
    (cubpGo_sound s.nxt.length 1 s le_rfl one_ne_zero).1 sE h
  have hne : sE.cur.isEmpty = false := by
    cases hc : sE.cur with
    | nil => simp [currentId, hc] at hrp
    | cons a l => simp [hc]
  have hexp : expect Token.RPAREN
      "consume_until_balanced_paren should end in RPAREN" sE = .ok sE := by
    simp [expect, hrp]
  have heq : consume_until_balanced_paren s = consume sE := by
    unfold consume_until_balanced_paren
    rw [h]
    unfold consumeTok
    simp only [String.isEmpty]
    rw [if_pos (by decide), hexp]
  obtain ⟨sF0, hcons⟩ : ∃ sF0, consume sE = .ok sF0 := by
    unfold consume
    rw [ended, hne]
    simp only [Bool.false_eq_true, if_false]
    cases sE.nxt with
    | nil => exact ⟨_, rfl⟩
    | cons a l => exact ⟨_, rfl⟩
  exact ⟨hrp, hexp, heq, sF0, by rw [heq, hcons]⟩

/-- Claim C3: the zero-argument `consume` (`advance`) throws the
end-of-input diagnostic exactly when the cursor has already ended;
otherwise it shifts the lookahead token (and its line) into the current
position and recomputes the lookahead as the next non-trivia token,
transparently skipping WS, NEWLINE and COMMENT tokens. -/
theorem C3_advance_spec (s : LexState) :
    (ended s = true → consume s = .error (.eofReached s.curLine)) ∧
    (∀ e, consume s = .error e →
      ended s = true ∧ e = Err.eofReached s.curLine) ∧
    (ended s = false →
      ∃ s1, consume s = .ok s1 ∧ s1.cur = s.nxt ∧ s1.curLine = s.nxtLine ∧
        s1.nxt = (s.nxt.drop 1).dropWhile (fun tk => isTrivia tk.id) ∧
        headNonTrivia s1.nxt = true) := by
  refine ⟨fun he => by simp [consume, he], consume_error_eof s, fun he => ?_⟩
  unfold consume
  rw [ended] at he
  rw [ended, he]
  simp only [Bool.false_eq_true, if_false]
  cases hn : s.nxt with
  | nil => exact ⟨_, rfl, rfl, rfl, by simp, rfl⟩
  | cons a rest =>
    refine ⟨_, rfl, rfl, rfl, ?_, ?_⟩
    · simpa using skip_whitespace_eq_dropWhile rest
    · rw [skip_whitespace_eq_dropWhile rest]
      exact headNonTrivia_dropWhile rest

/-- Claim C3, witness: a concrete non-ended cursor whose lookahead is
followed by a WS token; `consume` shifts the lookahead and skips the
trivia. -/
theorem C3_advance_witness :
    ∃ s1, consume ⟨[⟨Token.LPAREN, "("⟩, ⟨Token.WS, " "⟩,
          ⟨Token.NUMBER, "2"⟩], 1,
        [⟨Token.LPAREN, "("⟩, ⟨Token.WS, " "⟩, ⟨Token.NUMBER, "2"⟩], 1⟩
      = .ok s1 ∧
    s1.cur = [⟨Token.LPAREN, "("⟩, ⟨Token.WS, " "⟩, ⟨Token.NUMBER, "2"⟩] ∧
    s1.curLine = 1 ∧
    s1.nxt = ([⟨Token.LPAREN, "("⟩, ⟨Token.WS, " "⟩,
      ⟨Token.NUMBER, "2"⟩].drop 1).dropWhile (fun tk => isTrivia tk.id) ∧
    headNonTrivia s1.nxt = true :=
  (C3_advance_spec _).2.2 rfl

/-- Claim C4: `expect(kind, context)` throws exactly when the current
token's kind differs from the expected kind; the diagnostic carries the
current line, the expected kind's name, the actual lexeme and the
context string; and the state is never changed (on success the very
state is returned, and the `const` method mutates nothing). -/
theorem C4_expect_spec (s : LexState) (t : Token) (msg : String) :
    (currentId s = t → expect t msg s = .ok s) ∧
    (currentId s ≠ t →
      expect t msg s =
        .error (.unexpectedToken s.curLine (to_string t) (currentStr s) msg)) ∧
    (∀ s1, expect t msg s = .ok s1 → s1 = s) ∧
    (∀ e, expect t msg s = .error e →
      currentId s ≠ t ∧
        e = Err.unexpectedToken s.curLine (to_string t) (currentStr s) msg) := by
  by_cases h : currentId s = t
  · refine ⟨fun _ => by simp [expect, h], fun hne => absurd h hne,
      fun s1 h1 => ?_, fun e he => ?_⟩
    · simp [expect, h] at h1
      exact h1.symm
    · simp [expect, h] at he
  · refine ⟨fun heq => absurd heq h, fun _ => by simp [expect, h],
      fun s1 h1 => ?_, fun e he => ?_⟩
    · simp [expect, h] at h1
    · simp [expect, h] at he
      exact ⟨h, he.symm⟩

/-- Claim C4, witness: a concrete mismatch — current token is a WORD,
LPAREN expected — produces the diagnostic with line, expected kind name,
lexeme and context; a concrete match returns the state unchanged. -/
theorem C4_expect_witness :
    expect Token.LPAREN "ctx" ⟨[⟨Token.WORD, "foo"⟩], 3, [], 3⟩
      = .error (.unexpectedToken 3 "LPAREN" "foo" "ctx") ∧
    expect Token.WORD "ctx" ⟨[⟨Token.WORD, "foo"⟩], 3, [], 3⟩
      = .ok ⟨[⟨Token.WORD, "foo"⟩], 3, [], 3⟩ :=
  ⟨(C4_expect_spec ⟨[⟨Token.WORD, "foo"⟩], 3, [], 3⟩ Token.LPAREN "ctx").2.1
      (by decide),
    (C4_expect_spec ⟨[⟨Token.WORD, "foo"⟩], 3, [], 3⟩ Token.WORD "ctx").1
      (by decide)⟩

/-- Claim C5 (code bug): on the input `"\n("` the raw token stream is
NEWLINE, LPAREN; `start_parse` then surfaces the NEWLINE trivia token
itself as the current token and reports line 2, although no newline
precedes the surfaced token — the leading skip is applied to `current_`
but `consume()` overwrites `current_` from the unskipped `next_`. -/
theorem C5_start_parse_surfaces_trivia :
    tokenizeWith compiled_rules "\n(".data =
      some [⟨Token.NEWLINE, "\n"⟩, ⟨Token.LPAREN, "("⟩] ∧
    start_parse [⟨Token.NEWLINE, "\n"⟩, ⟨Token.LPAREN, "("⟩] =
      .ok ⟨[⟨Token.NEWLINE, "\n"⟩, ⟨Token.LPAREN, "("⟩], 2,
           [⟨Token.LPAREN, "("⟩], 2⟩ ∧
    currentId ⟨[⟨Token.NEWLINE, "\n"⟩, ⟨Token.LPAREN, "("⟩], 2,
        [⟨Token.LPAREN, "("⟩], 2⟩ = Token.NEWLINE ∧
    isTrivia Token.NEWLINE = true ∧
    LexState.curLine ⟨[⟨Token.NEWLINE, "\n"⟩, ⟨Token.LPAREN, "("⟩], 2,
        [⟨Token.LPAREN, "("⟩], 2⟩ = 2 :=
  ⟨rfl, rfl, rfl, rfl, rfl⟩

/-- Claim C1, counterexample: the all-uppercase mixture `AXON` does not
produce the AXON neurite-type token — the `[Aa]xon` rule requires the
letters after the first to be lowercase, so `AXON` (and likewise
`DENDRITE`) is tokenized by the catch-all WORD rule. -/
theorem C1_counterexample_uppercase_axon :
    tokenizeWith compiled_rules "AXON".data =
      some [⟨Token.WORD, "AXON"⟩] ∧
    tokenizeWith compiled_rules "AXON".data ≠
      some [⟨Token.AXON, "AXON"⟩] ∧
    tokenizeWith compiled_rules "DENDRITE".data =
      some [⟨Token.WORD, "DENDRITE"⟩] := by
  decide

/-- Claim C1, amended: the tokenizer recognizes the neurite-type words
with only the leading letter of each word case-insensitive — `[Aa]xon`,
`[Aa]pical`, `[Dd]endrite` and `[Cc]ell ?[Bb]ody` with exactly one
optional internal space — while other case mixtures fall through to the
WORD rule and two internal spaces split `Cell  Body` apart. -/
theorem C1_amended_leading_letter_case :
    tokenizeWith compiled_rules "axon".data = some [⟨Token.AXON, "axon"⟩] ∧
    tokenizeWith compiled_rules "Axon".data = some [⟨Token.AXON, "Axon"⟩] ∧
    tokenizeWith compiled_rules "apical".data =
      some [⟨Token.APICAL, "apical"⟩] ∧
    tokenizeWith compiled_rules "Apical".data =
      some [⟨Token.APICAL, "Apical"⟩] ∧
    tokenizeWith compiled_rules "dendrite".data =
      some [⟨Token.DENDRITE, "dendrite"⟩] ∧
    tokenizeWith compiled_rules "Dendrite".data =
      some [⟨Token.DENDRITE, "Dendrite"⟩] ∧
    tokenizeWith compiled_rules "CellBody".data =
      some [⟨Token.CELLBODY, "CellBody"⟩] ∧
    tokenizeWith compiled_rules "Cellbody".data =
      some [⟨Token.CELLBODY, "Cellbody"⟩] ∧
    tokenizeWith compiled_rules "cellBody".data =
      some [⟨Token.CELLBODY, "cellBody"⟩] ∧
    tokenizeWith compiled_rules "cellbody".data =
      some [⟨Token.CELLBODY, "cellbody"⟩] ∧
    tokenizeWith compiled_rules "Cell Body".data =
      some [⟨Token.CELLBODY, "Cell Body"⟩] ∧
    tokenizeWith compiled_rules "Cell body".data =
      some [⟨Token.CELLBODY, "Cell body"⟩] ∧
    tokenizeWith compiled_rules "cell Body".data =
      some [⟨Token.CELLBODY, "cell Body"⟩] ∧
    tokenizeWith compiled_rules "cell body".data =
      some [⟨Token.CELLBODY, "cell body"⟩] ∧
    tokenizeWith compiled_rules "aXon".data = some [⟨Token.WORD, "aXon"⟩] ∧
    tokenizeWith compiled_rules "APICAL".data =
      some [⟨Token.WORD, "APICAL"⟩] ∧
    tokenizeWith compiled_rules "Cell  Body".data =
      some [⟨Token.WORD, "Cell"⟩, ⟨Token.WS, "  "⟩, ⟨Token.WORD, "Body"⟩] := by
  decide

/-- Claim C10: the catch-all word rule needs at least two characters, so
on the single alphabetic character `q` — which no reserved-word, marker,
number or punctuation rule matches either — no tokenizer rule matches at
all and the input is not tokenized; single-letter identifiers are
outside the lexical grammar. -/
theorem C10_single_letter_unmatched :
    scanBest compiled_rules ['q'] = none ∧
    tokenizeWith compiled_rules ['q'] = none ∧
    matchWord ['q'] = none ∧
    (∀ c : Char, matchWord [c] = none) := by
  refine ⟨by decide, by decide, by decide, fun c => ?_⟩
  simp [matchWord, starCount]

/-- Claim C6: tokenization is deterministic across runs in one process —
with the static table state reachable at any point ([] before the first
build, the compiled table afterwards), running the tokenizer twice on
the same input yields the same token sequence, and therefore every parse
that is a function of the token sequence yields the same Canonical
Properties value on both runs. -/
theorem C6_determinism (input : List Char) (sm : RuleTable)
    (h : sm = [] ∨ sm = compiled_rules) :
    (runTokenize sm input).1 = (runTokenize (runTokenize sm input).2 input).1 ∧
    ∀ {α : Type} (parse : Option (List RawTok) → α),
      parse (runTokenize sm input).1 =
        parse (runTokenize (runTokenize sm input).2 input).1 := by
  rcases h with rfl | rfl <;> exact ⟨rfl, fun _ => rfl⟩

/-- Claim C6, witness: two successive runs on `axon` from a fresh
process state produce the same token sequence. -/
theorem C6_determinism_witness :
    (runTokenize [] "axon".data).1 =
      (runTokenize (runTokenize [] "axon".data).2 "axon".data).1 :=
  (C6_determinism "axon".data [] (Or.inl rfl)).1

/-- Claim C7: `build_lexer` is memoized and idempotent — the first call
on the empty static state builds the compiled table, any call on an
already-built (non-empty) state returns it unchanged, calling again on
the state a call leaves behind returns the same table and state, the
returned table is the compiled one for every reachable state, and a
tokenization run never mutates the table beyond what `build_lexer`
itself did. -/
theorem C7_build_lexer_memoized :
    build_lexer [] = (compiled_rules, compiled_rules) ∧
    (∀ sm : RuleTable, sm.isEmpty = false → build_lexer sm = (sm, sm)) ∧
    (∀ sm : RuleTable,
      build_lexer (build_lexer sm).2 = ((build_lexer sm).1, (build_lexer sm).2)) ∧
    (∀ sm : RuleTable, sm = [] ∨ sm = compiled_rules →
      (build_lexer sm).1 = compiled_rules) ∧
    (∀ (sm : RuleTable) (input : List Char),
      (runTokenize sm input).2 = (build_lexer sm).2) := by
  have hcr : (compiled_rules : List ((List Char → Option Nat) × Token)).isEmpty
      = false := rfl
  refine ⟨rfl, fun sm h => by simp [build_lexer, h], fun sm => ?_,
    fun sm h => by rcases h with rfl | rfl <;> rfl, fun sm input => rfl⟩
  cases hsm : (sm : List ((List Char → Option Nat) × Token)).isEmpty
  · simp [build_lexer, hsm]
  · simp [build_lexer, hsm, hcr]

/-- Claim C7, witness: the first call builds the compiled table and a
second call on the resulting state returns it unchanged. -/
theorem C7_build_lexer_memoized_witness :
    (build_lexer []).1 = compiled_rules ∧
    build_lexer compiled_rules = (compiled_rules, compiled_rules) :=
  ⟨C7_build_lexer_memoized.2.2.2.1 [] (Or.inl rfl),
    C7_build_lexer_memoized.2.1 compiled_rules rfl⟩

/-- Claim C8: a run of an embedded entry point either succeeds or fails
with exactly one typed error, never both; and the exposed exception
hierarchy matches the taxonomy — IDSequenceError, MultipleTrees,
MissingParentError and SectionBuilderError derive from RawDataError,
while RawDataError, SomaError and UnknownFileType are registered
directly under MorphioError, so soma and unknown-format errors are not
raw-data errors. -/
theorem C8_error_hierarchy :
    (∀ raw : List RawTok, isOkE (start_parse raw) = !isErrE (start_parse raw)) ∧
    derivesFrom "IDSequenceError" "RawDataError" = true ∧
    derivesFrom "MultipleTrees" "RawDataError" = true ∧
    derivesFrom "MissingParentError" "RawDataError" = true ∧
    derivesFrom "SectionBuilderError" "RawDataError" = true ∧
    parentOf "RawDataError" = some "MorphioError" ∧
    parentOf "SomaError" = some "MorphioError" ∧
    parentOf "UnknownFileType" = some "MorphioError" ∧
    derivesFrom "SomaError" "RawDataError" = false ∧
    derivesFrom "UnknownFileType" "RawDataError" = false ∧
    derivesFrom "SomaError" "MorphioError" = true ∧
    derivesFrom "UnknownFileType" "MorphioError" = true ∧
    derivesFrom "IDSequenceError" "MorphioError" = true ∧
    derivesFrom "RawDataError" "MorphioError" = true := by
  refine ⟨fun raw => ?_, by decide, by decide, by decide, by decide, by decide,
    by decide, by decide, by decide, by decide, by decide, by decide,
    by decide, by decide⟩
  rcases hsp : start_parse raw with e | s <;> simp [isOkE, isErrE]

/-- Claim C9, witness: concrete instance on the stream `( )`. -/
theorem C9_final_expect_unreachable_witness :
    currentId ⟨[⟨Token.RPAREN, ")"⟩], 1, [], 1⟩ = Token.RPAREN ∧
    expect Token.RPAREN "consume_until_balanced_paren should end in RPAREN"
        ⟨[⟨Token.RPAREN, ")"⟩], 1, [], 1⟩
      = .ok ⟨[⟨Token.RPAREN, ")"⟩], 1, [], 1⟩ ∧
    consume_until_balanced_paren ⟨[⟨Token.LPAREN, "("⟩, ⟨Token.RPAREN, ")"⟩], 1,
        [⟨Token.RPAREN, ")"⟩], 1⟩
      = consume ⟨[⟨Token.RPAREN, ")"⟩], 1, [], 1⟩ ∧
    (∃ sF, consume_until_balanced_paren ⟨[⟨Token.LPAREN, "("⟩,
        ⟨Token.RPAREN, ")"⟩], 1, [⟨Token.RPAREN, ")"⟩], 1⟩ = .ok sF) :=
  C9_final_expect_unreachable _ _ cubpGo_pair_run

end MorphioAsc
